import Mathlib

/-!
Verification development for the repository WCDT, file
`src/net_works/diffusion.py` (the conditional Gaussian diffusion model).

Embedding conventions:

- Floating-point tensor entries are modelled as exact rationals (`ℚ`):
  the claims under study are algebraic identities about the code's data
  flow, not about rounding.  `np.sqrt` has no exact rational counterpart,
  so it is modelled as an abstract function parameter `sqrt : ℚ → ℚ`
  threaded through the construction; every claim treats the sqrt-derived
  coefficients opaquely, so nothing depends on which function is passed.
- A 4-d tensor of shape (batch, agents, steps, coords) is modelled as a
  total function `ℕ → ℕ → ℕ → ℕ → ℚ`; pointwise arithmetic comes from the
  `Pi` instances.  `extract(a, t, x_shape)` reshapes `a.gather(-1, t)` to
  `(b, 1, 1, ..., 1)`, i.e. under broadcasting the resulting tensor
  depends only on the batch index; the embedding returns that broadcast
  tensor directly.
- Stochastic draws (`torch.randn_like`, the per-step sampling noise, the
  `torch.randint` timestep draw) are modelled as explicitly injected
  randomness sources, as the spec's design notes prescribe.
- `torch.Tensor` division of floats does not raise; `0/0` is NaN and
  `x/0` (x nonzero) is a signed infinity.  The scalar result of
  `get_losses` is therefore modelled in a small float-value type `FVal`
  with a faithful division `fdiv`.
- Python exceptions (`ValueError` at construction, the `torch.randint`
  range check in `forward`) are modelled with `Except String`.
- Shape errors raised by the linear layers / batch-norm layers are
  modelled by a separate shape-level semantics (`Option Shape4`), used by
  the claims about channel/width mismatches.
-/

/-- Float values as produced by torch tensor arithmetic on scalars:
either an ordinary (finite) value, one of the two infinities, or NaN. -/
inductive FVal where
  | nan : FVal
  | inf : FVal
  | ninf : FVal
  | val : ℚ → FVal
deriving DecidableEq

/-- IEEE-style division of finite floats: a zero denominator yields NaN
(for a zero numerator) or a signed infinity, never an exception. -/
def fdiv (a b : ℚ) : FVal :=
  if b = 0 then
    if a = 0 then FVal.nan else if 0 < a then FVal.inf else FVal.ninf
  else FVal.val (a / b)

/-- A 4-d float tensor (batch, agents, steps, coords), as a total map
from indices to entries.  Pointwise `+`, `-`, `*` come from `Pi`. -/
abbrev Tensor4 := ℕ → ℕ → ℕ → ℕ → ℚ

/-- A batch of integer timestep indices, one per batch row
(`t` of shape `(batch,)` in the source). -/
abbrev TBatch := ℕ → ℕ

/-- Shape of a 4-d tensor. -/
abbrev Shape4 := ℕ × ℕ × ℕ × ℕ

/-- Source `extract(a, t, x_shape)`: gathers `a[t[b]]` per batch row and
reshapes to `(b, 1, 1, 1)`, which under broadcasting is the tensor whose
entries depend only on the batch index.  Out-of-range indices cannot
occur in the claims (all hypotheses bound `t` by the schedule length). -/
def extract (a : List ℚ) (t : TBatch) : Tensor4 :=
  fun b _ _ _ => a.getD (t b) 0

/-- Source `np.cumprod`: prefix products of a vector. -/
def cumprod : List ℚ → List ℚ
  | [] => []
  | x :: xs => x :: (cumprod xs).map (fun y => x * y)

theorem cumprod_length : ∀ l : List ℚ, (cumprod l).length = l.length
  | [] => rfl
  | _ :: xs => by simp [cumprod, cumprod_length xs]

theorem cumprod_getD : ∀ (l : List ℚ) (i : ℕ), i < l.length →
    (cumprod l).getD i 0 = (l.take (i + 1)).prod
  | [], i, h => by simp at h
  | x :: xs, 0, _ => by simp [cumprod]
  | x :: xs, i + 1, h => by
    have hx : i < xs.length := by simpa using Nat.lt_of_succ_lt_succ h
    have hcx : i < (cumprod xs).length := by rw [cumprod_length]; exact hx
    have hm : i < ((cumprod xs).map (fun y => x * y)).length := by simpa using hcx
    have : ((cumprod xs).map (fun y => x * y)).getD i 0 = x * (cumprod xs).getD i 0 := by
      rw [List.getD_eq_getElem _ _ hm, List.getD_eq_getElem _ _ hcx, List.getElem_map]
    simp only [cumprod, List.getD_cons_succ, this, cumprod_getD xs i hx,
      List.take_succ_cons, List.prod_cons]

/-- Helper: a product of entries in `[0, 1]` is at most `1`. -/
theorem list_prod_le_one : ∀ l : List ℚ, (∀ x ∈ l, 0 ≤ x) → (∀ x ∈ l, x ≤ 1) →
    l.prod ≤ 1
  | [], _, _ => by simp
  | x :: xs, h0, h1 => by
    have hx0 : 0 ≤ x := h0 x (by simp)
    have hx1 : x ≤ 1 := h1 x (by simp)
    have hrec : xs.prod ≤ 1 :=
      list_prod_le_one xs (fun y hy => h0 y (by simp [hy])) (fun y hy => h1 y (by simp [hy]))
    have hrec0 : 0 ≤ xs.prod := List.prod_nonneg (fun y hy => h0 y (by simp [hy]))
    calc (x :: xs).prod = x * xs.prod := List.prod_cons
    _ ≤ 1 := mul_le_one₀ hx1 hrec0 hrec

/-- Derived vector `alphas = 1.0 - betas` (source line 167). -/
def alphasOf (betas : List ℚ) : List ℚ := betas.map (fun b => 1 - b)

/-- Derived vector `alphas_cum_prod = np.cumprod(alphas)` (source line 168). -/
def alphasCumProdOf (betas : List ℚ) : List ℚ := cumprod (alphasOf betas)

/-- Derived vector `np.sqrt(alphas_cum_prod)` (source line 179). -/
def sqrtAlphasCumProdOf (sqrt : ℚ → ℚ) (betas : List ℚ) : List ℚ :=
  (alphasCumProdOf betas).map sqrt

/-- Derived vector `np.sqrt(1 - alphas_cum_prod)` (source line 181). -/
def sqrtOneMinusAlphasCumProdOf (sqrt : ℚ → ℚ) (betas : List ℚ) : List ℚ :=
  (alphasCumProdOf betas).map (fun x => sqrt (1 - x))

/-- Derived vector `np.sqrt(1 / alphas)` (source line 183). -/
def reciprocalSqrtAlphasOf (sqrt : ℚ → ℚ) (betas : List ℚ) : List ℚ :=
  (alphasOf betas).map (fun a => sqrt (1 / a))

/-- Derived vector `sigma = np.sqrt(betas)` (source line 184). -/
def sigmaOf (sqrt : ℚ → ℚ) (betas : List ℚ) : List ℚ := betas.map sqrt

/-- Construction-local `alphas_cum_prod_prev = np.append(1, alphas_cum_prod[:-1])`
(source line 185); note it is a local helper, not a registered buffer. -/
def alphasCumProdPrevOf (betas : List ℚ) : List ℚ :=
  1 :: (alphasCumProdOf betas).dropLast

/-- Derived vector
`remove_noise_coeff = betas * (1 - alphas_cum_prod_prev / np.sqrt(1 - alphas_cum_prod))`
(source lines 187-188); numpy's elementwise products over equal-length
vectors are modelled with `zipWith`. -/
def removeNoiseCoeffOf (sqrt : ℚ → ℚ) (betas : List ℚ) : List ℚ :=
  List.zipWith (fun bet r => bet * (1 - r)) betas
    (List.zipWith (fun p q => p / sqrt (1 - q))
      (alphasCumProdPrevOf betas) (alphasCumProdOf betas))

theorem alphasOf_length (betas : List ℚ) : (alphasOf betas).length = betas.length := by
  simp [alphasOf]

theorem alphasCumProdOf_length (betas : List ℚ) :
    (alphasCumProdOf betas).length = betas.length := by
  simp [alphasCumProdOf, cumprod_length, alphasOf_length]

theorem removeNoiseCoeffOf_length (sqrt : ℚ → ℚ) (betas : List ℚ) :
    (removeNoiseCoeffOf sqrt betas).length = betas.length := by
  rcases betas with _ | ⟨b, bs⟩
  · simp [removeNoiseCoeffOf, alphasCumProdPrevOf, alphasCumProdOf, alphasOf, cumprod]
  · simp only [removeNoiseCoeffOf, List.length_zipWith]
    have h1 : (alphasCumProdPrevOf (b :: bs)).length = bs.length + 1 := by
      simp [alphasCumProdPrevOf, alphasCumProdOf_length]
    have h2 : (alphasCumProdOf (b :: bs)).length = bs.length + 1 := by
      simp [alphasCumProdOf_length]
    simp [h1, h2]

/-- Shape bookkeeping for `LinearLayer` (source lines 27-40): a
`nn.Linear(input_dim, output_dim)` followed by LeakyReLU and a
`nn.BatchNorm1d(output_dim)` applied across a transpose. -/
structure LinearLayer where
  in_features : ℕ
  out_features : ℕ
  bn_features : ℕ

def LinearLayer.make (input_dim output_dim : ℕ) : LinearLayer :=
  { in_features := input_dim, out_features := output_dim, bn_features := output_dim }

/-- Shape semantics of `LinearLayer.forward` on a 3-d input
`(batch, agents, features)`: the linear layer requires the trailing
feature width to equal `in_features`; the transposed batch-norm requires
its channel count (`out_features` after the linear map) to equal
`bn_features`.  On success the feature width becomes `out_features`. -/
def LinearLayer.forwardShape (m : LinearLayer) (s : ℕ × ℕ × ℕ) : Option (ℕ × ℕ × ℕ) :=
  if s.2.2 = m.in_features ∧ m.bn_features = m.out_features then
    some (s.1, s.2.1, m.out_features)
  else none

/-- Source `Decoder` (lines 43-53): up-projection, concatenation with the
skip tensor along the feature axis, then a fusing `LinearLayer`. -/
structure Decoder where
  up : LinearLayer
  cat_layer : LinearLayer

def Decoder.make (input_dim middle_dim output_dim : ℕ) : Decoder :=
  { up := LinearLayer.make input_dim output_dim,
    cat_layer := LinearLayer.make middle_dim output_dim }

/-- Shape semantics of `Decoder.forward (x1, x2)`: `torch.cat` along the
last axis requires equal leading dimensions. -/
def Decoder.forwardShape (m : Decoder) (x1 x2 : ℕ × ℕ × ℕ) : Option (ℕ × ℕ × ℕ) :=
  (m.up.forwardShape x1).bind fun u =>
    if u.1 = x2.1 ∧ u.2.1 = x2.2.1 then
      m.cat_layer.forwardShape (u.1, u.2.1, u.2.2 + x2.2.2)
    else none

/-- Source `UnetDiffusionModel.__init__` (lines 56-83), recording the
construction-time dimensions of every layer. -/
structure UnetDiffusionModel where
  dims : List ℕ
  his_delt_step : ℕ
  input_dim : ℕ
  conditional_dim : ℕ
  input_tensor_dim : ℕ
  layer1 : LinearLayer
  layer2 : LinearLayer
  layer3 : LinearLayer
  layer4 : LinearLayer
  layer5 : LinearLayer
  decode4 : Decoder
  decode3 : Decoder
  decode2 : Decoder
  output_layer_in : ℕ
  output_layer_out : ℕ

/-- `UnetDiffusionModel(dims, input_dim, conditional_dim, his_stp)`; a
`none` first argument selects the python default `[64, 128, 256, 512]`
(the python defaults of the remaining arguments are written explicitly
at each call site of `make`). -/
def UnetDiffusionModel.make (dims0 : Option (List ℕ))
    (input_dim conditional_dim his_stp : ℕ) : UnetDiffusionModel :=
  let dims := dims0.getD [64, 128, 256, 512]
  let hds := his_stp - 1
  let itd := hds * input_dim + conditional_dim * his_stp + 1
  { dims := dims,
    his_delt_step := hds,
    input_dim := input_dim,
    conditional_dim := conditional_dim,
    input_tensor_dim := itd,
    layer1 := LinearLayer.make itd (dims.getD 0 0),
    layer2 := LinearLayer.make (dims.getD 0 0) (dims.getD 1 0),
    layer3 := LinearLayer.make (dims.getD 1 0) (dims.getD 2 0),
    layer4 := LinearLayer.make (dims.getD 2 0) (dims.getD 3 0),
    layer5 := LinearLayer.make (dims.getD 3 0) 64,
    decode4 := Decoder.make 64 768 (dims.getD 2 0),
    decode3 := Decoder.make (dims.getD 2 0) 384 (dims.getD 1 0),
    decode2 := Decoder.make (dims.getD 1 0) 192 (dims.getD 0 0),
    output_layer_in := dims.getD 0 0,
    output_layer_out := hds * input_dim }

/-- Shape semantics of `UnetDiffusionModel.forward(perturbed_x, t,
predicted_his_traj)` (source lines 85-104): flatten from dim 2, append
the broadcast timestep as one extra feature, concatenate (which requires
matching leading dimensions), run the encoder/decoder stack, and reshape
the head output to `(batch, obs, his_delt_step, input_dim)` (the `view`
requires the element counts to agree). -/
def UnetDiffusionModel.forwardShape (m : UnetDiffusionModel)
    (x hist : Shape4) : Option Shape4 :=
  let B := x.1
  let A := x.2.1
  if hist.1 = B ∧ hist.2.1 = A then
    let w := x.2.2.1 * x.2.2.2 + hist.2.2.1 * hist.2.2.2 + 1
    (m.layer1.forwardShape (B, A, w)).bind fun e1 =>
    (m.layer2.forwardShape e1).bind fun e2 =>
    (m.layer3.forwardShape e2).bind fun e3 =>
    (m.layer4.forwardShape e3).bind fun e4 =>
    (m.layer5.forwardShape e4).bind fun f =>
    (m.decode4.forwardShape f e4).bind fun d4 =>
    (m.decode3.forwardShape d4 e3).bind fun d3 =>
    (m.decode2.forwardShape d3 e2).bind fun d2 =>
    if d2.2.2 = m.output_layer_in ∧
        m.output_layer_out = m.his_delt_step * m.input_dim then
      some (B, A, m.his_delt_step, m.input_dim)
    else none
  else none

/-- Source `DitDiffusionModel.__init__` (lines 107-128).  Note the field
`input_dim` stores, as in the source, the embedding width
`his_delt_step * input_dim + 1`, and `conditional_dim` stores
`his_stp * conditional_dim`. -/
structure DitDiffusionModel where
  his_delt_step : ℕ
  input_dim : ℕ
  conditional_dim : ℕ
  num_dit_blocks : ℕ
  linear_out_final : ℕ

def DitDiffusionModel.make (input_dim conditional_dim his_stp num_dit_blocks : ℕ) :
    DitDiffusionModel :=
  let hds := his_stp - 1
  { his_delt_step := hds,
    input_dim := hds * input_dim + 1,
    conditional_dim := his_stp * conditional_dim,
    num_dit_blocks := num_dit_blocks,
    linear_out_final := hds * input_dim }

/-- Shape semantics of the stack of `TransformerCrossAttention` blocks:
each block was constructed with widths `(m.input_dim, m.conditional_dim)`
and maps a trajectory representation of that width (with a condition of
that width) to an output of the same width. -/
def ditBlocksShape (m : DitDiffusionModel) (hw : ℕ) : ℕ → ℕ → Option ℕ
  | w, 0 => some w
  | w, n + 1 =>
    if w = m.input_dim ∧ hw = m.conditional_dim then
      ditBlocksShape m hw m.input_dim n
    else none

/-- Shape semantics of `DitDiffusionModel.forward` (source lines
130-144): flatten the trajectory, append the broadcast timestep, flatten
the history as the condition, run the cross-attention blocks, then the
projection head (whose first linear layer requires width `m.input_dim`),
and finally `view(batch, obs, his_delt_step, -1)` (the inferred last
dimension requires divisibility by `his_delt_step`). -/
def DitDiffusionModel.forwardShape (m : DitDiffusionModel)
    (x hist : Shape4) : Option Shape4 :=
  let B := x.1
  let A := x.2.1
  if hist.1 = B ∧ hist.2.1 = A then
    let w := x.2.2.1 * x.2.2.2 + 1
    let hw := hist.2.2.1 * hist.2.2.2
    (ditBlocksShape m hw w m.num_dit_blocks).bind fun w2 =>
    if w2 = m.input_dim ∧ m.his_delt_step ∣ m.linear_out_final then
      some (B, A, m.his_delt_step, m.linear_out_final / m.his_delt_step)
    else none
  else none

/-- The polymorphic denoiser slot `self.diffusion_model`: a U-Net, a
DiT, or python `None` when diffusion is disabled. -/
inductive DenoiserModule where
  | unet : UnetDiffusionModel → DenoiserModule
  | dit : DitDiffusionModel → DenoiserModule
  | none : DenoiserModule

/-- Shape semantics of invoking `self.diffusion_model(...)`; invoking the
`None` slot is a python error, modelled as shape failure. -/
def DenoiserModule.forwardShape : DenoiserModule → Shape4 → Shape4 → Option Shape4
  | .unet m => m.forwardShape
  | .dit m => m.forwardShape
  | .none => fun _ _ => Option.none

/-- Source `GaussianDiffusion.__init__` state (lines 147-205): the
validated configuration strings, the eight registered coefficient
buffers, the construction-local `alphas_cum_prod_prev` helper, the
selected denoiser module, and the `nn.BatchNorm2d(5)` output normaliser
(recorded by its hard-coded channel count). -/
structure GaussianDiffusion where
  loss_type : String
  diffusion_type : String
  num_time_steps : ℕ
  betas : List ℚ
  alphas : List ℚ
  alphas_cum_prod : List ℚ
  sqrt_alphas_cum_prod : List ℚ
  sqrt_one_minus_alphas_cum_prod : List ℚ
  reciprocal_sqrt_alphas : List ℚ
  sigma : List ℚ
  alphas_cum_prod_prev : List ℚ
  remove_noise_coeff : List ℚ
  his_delt_step : ℕ
  input_dim : ℕ
  diffusion_model : DenoiserModule
  norm_output_features : ℕ

/-- Source `GaussianDiffusion.__init__` (lines 148-205).  `np.sqrt` is
the abstract `sqrt` parameter.  Unknown `loss_type` / `diffusion_type`
raise `ValueError`, modelled as `Except.error`.  The denoiser
constructors are called without a `his_stp` argument in the source, so
the python default `his_stp = 11` applies; that default is written
explicitly here (`UnetDiffusionModel` additionally defaults
`dims = None`). -/
def GaussianDiffusion.init (sqrt : ℚ → ℚ)
    (input_dim conditional_dim his_stp : ℕ) (betas : List ℚ)
    (loss_type : String) (num_dit_blocks : ℕ) (diffusion_type : String) :
    Except String GaussianDiffusion :=
  if loss_type ∉ ["l1", "l2"] then
    Except.error ("get unknown loss type: " ++ loss_type)
  else if diffusion_type ∉ ["dit", "unet", "none"] then
    Except.error ("get unknown diffusion type: " ++ diffusion_type)
  else
    Except.ok
      { loss_type := loss_type,
        diffusion_type := diffusion_type,
        num_time_steps := betas.length,
        betas := betas,
        alphas := alphasOf betas,
        alphas_cum_prod := alphasCumProdOf betas,
        sqrt_alphas_cum_prod := sqrtAlphasCumProdOf sqrt betas,
        sqrt_one_minus_alphas_cum_prod := sqrtOneMinusAlphasCumProdOf sqrt betas,
        reciprocal_sqrt_alphas := reciprocalSqrtAlphasOf sqrt betas,
        sigma := sigmaOf sqrt betas,
        alphas_cum_prod_prev := alphasCumProdPrevOf betas,
        remove_noise_coeff := removeNoiseCoeffOf sqrt betas,
        his_delt_step := his_stp - 1,
        input_dim := input_dim,
        diffusion_model :=
          if diffusion_type = "dit" then
            DenoiserModule.dit
              (DitDiffusionModel.make input_dim conditional_dim 11 num_dit_blocks)
          else if diffusion_type = "unet" then
            DenoiserModule.unet
              (UnetDiffusionModel.make Option.none input_dim conditional_dim 11)
          else DenoiserModule.none,
        norm_output_features := 5 }

/-- A value-level denoiser: any map `(noisy trajectory, timestep batch,
history) → predicted noise`, standing for `self.diffusion_model(...)`. -/
abbrev Denoiser := Tensor4 → TBatch → Tensor4 → Tensor4

/-- Source `GaussianDiffusion.remove_noise` (lines 207-212):
`(noise - extract(remove_noise_coeff, t, shape) * model_output) *
extract(reciprocal_sqrt_alphas, t, shape)`. -/
def GaussianDiffusion.remove_noise (gd : GaussianDiffusion) (D : Denoiser)
    (noise : Tensor4) (t_batch : TBatch) (predicted_his_traj : Tensor4) : Tensor4 :=
  (noise - extract gd.remove_noise_coeff t_batch * D noise t_batch predicted_his_traj) *
    extract gd.reciprocal_sqrt_alphas t_batch

/-- Source `torch.transpose(x, 1, -1)` on a 4-d tensor: swap the agent
and coordinate axes. -/
def transpose1Neg1 (x : Tensor4) : Tensor4 := fun b a s d => x b d s a

/-- The reverse-sampling loop body of `sample` (lines 218-222), indexed
by the timestep `t` still to process down to `0`.  `ns t` is the fresh
Gaussian draw `torch.randn_like(noise)` of iteration `t` (injected
randomness); the second component counts denoiser invocations. -/
def GaussianDiffusion.sampleLoop (gd : GaussianDiffusion) (D : Denoiser)
    (ns : ℕ → Tensor4) (predicted_his_traj : Tensor4) :
    ℕ → Tensor4 → Tensor4 × ℕ
  | 0, noise => (gd.remove_noise D noise (fun _ => 0) predicted_his_traj, 1)
  | t + 1, noise =>
    let x1 := gd.remove_noise D noise (fun _ => t + 1) predicted_his_traj
    let x2 := x1 + extract gd.sigma (fun _ => t + 1) * ns (t + 1)
    let p := gd.sampleLoop D ns predicted_his_traj t x2
    (p.1, p.2 + 1)

/-- Source `GaussianDiffusion.sample` (lines 214-226), paired with the
number of denoiser invocations performed.  `norm2d` is the value map of
the `nn.BatchNorm2d(5)` module `self.norm_output` (its trained
statistics are irrelevant to the claims), applied between the two
transposes exactly as in the source. -/
def GaussianDiffusion.sampleCore (gd : GaussianDiffusion) (D : Denoiser)
    (ns : ℕ → Tensor4) (norm2d : Tensor4 → Tensor4)
    (noise predicted_his_traj : Tensor4) : Tensor4 × ℕ :=
  if gd.diffusion_type ≠ "none" then
    match gd.num_time_steps with
    | 0 => (transpose1Neg1 (norm2d (transpose1Neg1 noise)), 0)
    | k + 1 =>
      let p := gd.sampleLoop D ns predicted_his_traj k noise
      (transpose1Neg1 (norm2d (transpose1Neg1 p.1)), p.2)
  else (noise, 0)

/-- The tensor returned by `sample`. -/
def GaussianDiffusion.sample (gd : GaussianDiffusion) (D : Denoiser)
    (ns : ℕ → Tensor4) (norm2d : Tensor4 → Tensor4)
    (noise predicted_his_traj : Tensor4) : Tensor4 :=
  (gd.sampleCore D ns norm2d noise predicted_his_traj).1

/-- One reverse step at timestep `t`, as the spec describes it: replace
the state by `remove_noise(state, t, history)` and, only for `t > 0`,
add `sigma[t] * freshNoise`.  Used to characterise the loop. -/
def GaussianDiffusion.revStep (gd : GaussianDiffusion) (D : Denoiser)
    (ns : ℕ → Tensor4) (predicted_his_traj : Tensor4)
    (noise : Tensor4) (t : ℕ) : Tensor4 :=
  let x1 := gd.remove_noise D noise (fun _ => t) predicted_his_traj
  if 0 < t then x1 + extract gd.sigma (fun _ => t) * ns t else x1

/-- Source `GaussianDiffusion.perturb_x` (lines 228-232):
`extract(sqrt_alphas_cum_prod, t, shape) * future_traj +
extract(sqrt_one_minus_alphas_cum_prod, t, shape) * noise`. -/
def GaussianDiffusion.perturb_x (gd : GaussianDiffusion)
    (future_traj : Tensor4) (t : TBatch) (noise : Tensor4) : Tensor4 :=
  extract gd.sqrt_alphas_cum_prod t * future_traj +
    extract gd.sqrt_one_minus_alphas_cum_prod t * noise

/-- Sum of all entries of a `(B, A, S, C)`-shaped tensor (`torch.sum`). -/
def tsum4 (B A S C : ℕ) (x : Tensor4) : ℚ :=
  ∑ b ∈ Finset.range B, ∑ a ∈ Finset.range A,
    ∑ s ∈ Finset.range S, ∑ c ∈ Finset.range C, x b a s c

/-- Source `GaussianDiffusion.get_losses` (lines 234-247).  `noiseDraw`
is the injected `torch.randn_like(predicted_his_traj_delt)` draw; `B` and
`A` are the leading dimensions of `perturbed_x`.
`F.mse_loss(..., reduction="none")` is the elementwise squared error;
the mask is viewed `(B, obs, 1, 1)` and repeated over
`(his_delt_step, input_dim)`; the return value is the float scalar
`sum(loss * mask) / sum(mask)` (an unguarded tensor division). -/
def GaussianDiffusion.get_losses (gd : GaussianDiffusion) (D : Denoiser)
    (noiseDraw : Tensor4) (predicted_his_traj_delt predicted_his_traj : Tensor4)
    (predicted_traj_mask : ℕ → ℕ → ℚ) (t : TBatch) (B A : ℕ) : FVal :=
  if gd.diffusion_type ≠ "none" then
    let noise := noiseDraw
    let perturbed_x := gd.perturb_x predicted_his_traj_delt t noise
    let estimated_noise := D perturbed_x t predicted_his_traj
    let diffusion_loss : Tensor4 :=
      fun b a s c => (estimated_noise b a s c - noise b a s c) ^ 2
    let diffusion_loss_mask : Tensor4 := fun b a _ _ => predicted_traj_mask b a
    fdiv (tsum4 B A gd.his_delt_step gd.input_dim (diffusion_loss * diffusion_loss_mask))
      (tsum4 B A gd.his_delt_step gd.input_dim diffusion_loss_mask)
  else FVal.val 0

/-- Source `torch.randint(low, high, (batch,))`: requires `low < high`
(otherwise torch raises), and returns per-row values in `[low, high)`
obtained here from an injected entropy source `draw`. -/
def randint (lo hi : ℕ) (draw : ℕ → ℕ) : Except String TBatch :=
  if lo < hi then Except.ok (fun b => lo + draw b % (hi - lo))
  else Except.error ("random_ expects from to be less than to")

/-- Source `GaussianDiffusion.forward` (lines 249-258): draw one uniform
timestep per batch row with `torch.randint(0, num_time_steps, (batch,))`
and delegate to `get_losses`.  The three tensors stand for the entries
of the `data` dict. -/
def GaussianDiffusion.forward (gd : GaussianDiffusion) (D : Denoiser)
    (noiseDraw : Tensor4) (draw : ℕ → ℕ)
    (predicted_his_traj_delt predicted_his_traj : Tensor4)
    (predicted_traj_mask : ℕ → ℕ → ℚ) (B A : ℕ) : Except String FVal :=
  match randint 0 gd.num_time_steps draw with
  | Except.error e => Except.error e
  | Except.ok t =>
    Except.ok (gd.get_losses D noiseDraw predicted_his_traj_delt predicted_his_traj
      predicted_traj_mask t B A)

/-- Shape semantics of `remove_noise`: the denoiser output is combined
elementwise with the input (the `extract` factors broadcast from
`(B, 1, 1, 1)`), so its shape must equal the input shape. -/
def GaussianDiffusion.removeNoiseShape (gd : GaussianDiffusion)
    (x hist : Shape4) : Option Shape4 :=
  (gd.diffusion_model.forwardShape x hist).bind fun mo =>
    if mo = x then some x else none

/-- Shape semantics of the reverse-sampling loop: `n` iterations, each a
`remove_noise` (the `sigma * randn_like` correction keeps the shape). -/
def GaussianDiffusion.sampleLoopShape (gd : GaussianDiffusion) (hist : Shape4) :
    ℕ → Shape4 → Option Shape4
  | 0, s => some s
  | n + 1, s => (gd.removeNoiseShape s hist).bind fun s2 =>
      gd.sampleLoopShape hist n s2

/-- Shape semantics of `sample` (lines 214-226): when diffusion is
enabled, run `num_time_steps` reverse steps, then `transpose(1, -1)`,
apply `nn.BatchNorm2d(norm_output_features)` — which requires its channel
dimension (the coordinate axis of the un-transposed tensor) to equal the
hard-coded feature count — and transpose back. -/
def GaussianDiffusion.sampleShape (gd : GaussianDiffusion)
    (noiseS histS : Shape4) : Option Shape4 :=
  if gd.diffusion_type ≠ "none" then
    (gd.sampleLoopShape histS gd.num_time_steps noiseS).bind fun s =>
      if s.2.2.2 = gd.norm_output_features then some s else none
  else some noiseS

/-- Shape semantics of `get_losses` (lines 234-247): perturb the delta
(shape-preserving), run the denoiser, require the elementwise
`mse_loss` operands to agree, and require the repeated mask
`(B, A, his_delt_step, input_dim)` to match the loss tensor.  The result
is a scalar, so `some ()` reports success. -/
def GaussianDiffusion.getLossesShape (gd : GaussianDiffusion)
    (deltS histS : Shape4) (maskS : ℕ × ℕ) : Option Unit :=
  if gd.diffusion_type ≠ "none" then
    (gd.diffusion_model.forwardShape deltS histS).bind fun est =>
      if est = deltS ∧ maskS.1 = deltS.1 ∧ maskS.2 = deltS.2.1 ∧
          deltS.2.2.1 = gd.his_delt_step ∧ deltS.2.2.2 = gd.input_dim then
        some ()
      else none
  else some ()

/-- Helper: a successful construction yields exactly the record written
in `GaussianDiffusion.init`, field by field. -/
theorem GaussianDiffusion.init_fields {sqrt : ℚ → ℚ}
    {input_dim conditional_dim his_stp : ℕ} {betas : List ℚ}
    {loss_type : String} {num_dit_blocks : ℕ} {diffusion_type : String}
    {gd : GaussianDiffusion}
    (h : GaussianDiffusion.init sqrt input_dim conditional_dim his_stp betas
      loss_type num_dit_blocks diffusion_type = Except.ok gd) :
    gd.loss_type = loss_type ∧ gd.diffusion_type = diffusion_type ∧
    gd.num_time_steps = betas.length ∧ gd.betas = betas ∧
    gd.alphas = alphasOf betas ∧ gd.alphas_cum_prod = alphasCumProdOf betas ∧
    gd.sqrt_alphas_cum_prod = sqrtAlphasCumProdOf sqrt betas ∧
    gd.sqrt_one_minus_alphas_cum_prod = sqrtOneMinusAlphasCumProdOf sqrt betas ∧
    gd.reciprocal_sqrt_alphas = reciprocalSqrtAlphasOf sqrt betas ∧
    gd.sigma = sigmaOf sqrt betas ∧
    gd.alphas_cum_prod_prev = alphasCumProdPrevOf betas ∧
    gd.remove_noise_coeff = removeNoiseCoeffOf sqrt betas ∧
    gd.his_delt_step = his_stp - 1 ∧ gd.input_dim = input_dim ∧
    gd.norm_output_features = 5 ∧
    gd.diffusion_model =
      (if diffusion_type = "dit" then
        DenoiserModule.dit
          (DitDiffusionModel.make input_dim conditional_dim 11 num_dit_blocks)
      else if diffusion_type = "unet" then
        DenoiserModule.unet
          (UnetDiffusionModel.make Option.none input_dim conditional_dim 11)
      else DenoiserModule.none) := by
  unfold GaussianDiffusion.init at h
  split at h
  · exact absurd h (by simp)
  · split at h
    · exact absurd h (by simp)
    · cases h
      exact ⟨rfl, rfl, rfl, rfl, rfl, rfl, rfl, rfl, rfl, rfl, rfl, rfl, rfl, rfl, rfl, rfl⟩

theorem getD_map_of_lt (f : ℚ → ℚ) (l : List ℚ) (i : ℕ) (h : i < l.length) :
    (l.map f).getD i 0 = f (l.getD i 0) := by
  have hm : i < (l.map f).length := by simpa using h
  rw [List.getD_eq_getElem _ _ hm, List.getD_eq_getElem _ _ h, List.getElem_map]

theorem getD_zipWith_of_lt (f : ℚ → ℚ → ℚ) (l1 l2 : List ℚ) (i : ℕ)
    (h1 : i < l1.length) (h2 : i < l2.length) :
    (List.zipWith f l1 l2).getD i 0 = f (l1.getD i 0) (l2.getD i 0) := by
  have hz : i < (List.zipWith f l1 l2).length := by
    rw [List.length_zipWith]; exact lt_min h1 h2
  rw [List.getD_eq_getElem _ _ hz, List.getD_eq_getElem _ _ h1,
    List.getD_eq_getElem _ _ h2, List.getElem_zipWith]

/-- The reverse loop of `sample` processes the timesteps `k, k-1, ..., 0`
in order: it is the left fold of the single reverse step over that
descending list, and performs exactly `k + 1` denoiser invocations. -/
theorem sampleLoop_eq_foldl (gd : GaussianDiffusion) (D : Denoiser)
    (ns : ℕ → Tensor4) (hist : Tensor4) :
    ∀ (k : ℕ) (noise : Tensor4),
      gd.sampleLoop D ns hist k noise =
        (((List.range (k + 1)).reverse).foldl (gd.revStep D ns hist) noise, k + 1)
  | 0, noise => by
    simp [GaussianDiffusion.sampleLoop, GaussianDiffusion.revStep, List.range_succ]
  | k + 1, noise => by
    have hrange : (List.range (k + 2)).reverse = (k + 1) :: (List.range (k + 1)).reverse := by
      simp [List.range_succ]
    have hstep : gd.revStep D ns hist noise (k + 1) =
        gd.remove_noise D noise (fun _ => k + 1) hist +
          extract gd.sigma (fun _ => k + 1) * ns (k + 1) := by
      simp [GaussianDiffusion.revStep]
    simp only [GaussianDiffusion.sampleLoop, hrange, List.foldl_cons, hstep,
      sampleLoop_eq_foldl gd D ns hist k]

/-- If one reverse step preserves a shape, so does any number of them. -/
theorem sampleLoopShape_fixed (gd : GaussianDiffusion) (hist s : Shape4)
    (h : gd.removeNoiseShape s hist = some s) :
    ∀ n : ℕ, gd.sampleLoopShape hist n s = some s
  | 0 => rfl
  | n + 1 => by
    simp [GaussianDiffusion.sampleLoopShape, h, sampleLoopShape_fixed gd hist s h n]

/-- Caller tensors shaped by `his_stp = h` disagree with the U-Net's
flattened input width (derived from the python default `his_stp = 11`)
whenever `h ≠ 11` and the coordinate dimension is positive. -/
theorem unet_width_ne (i c h : ℕ) (hi : 0 < i) (hh : h ≠ 11) :
    (h - 1) * i + h * c + 1 ≠ 10 * i + c * 11 + 1 := by
  have hsplit : h ≤ 10 ∨ 12 ≤ h := by omega
  rcases hsplit with h10 | h12
  · have b1 : (h - 1) * i ≤ 9 * i := Nat.mul_le_mul_right i (by omega)
    have b2 : h * c ≤ 10 * c := Nat.mul_le_mul_right c (by omega)
    omega
  · have b1 : 11 * i ≤ (h - 1) * i := Nat.mul_le_mul_right i (by omega)
    have b2 : 12 * c ≤ h * c := Nat.mul_le_mul_right c (by omega)
    omega

/-- Same claim for the DiT embedding width `his_delt_step * input_dim + 1`. -/
theorem dit_width_ne (i h : ℕ) (hi : 0 < i) (hh : h ≠ 11) :
    (h - 1) * i + 1 ≠ 10 * i + 1 := by
  have hsplit : h ≤ 10 ∨ 12 ≤ h := by omega
  rcases hsplit with h10 | h12
  · have b1 : (h - 1) * i ≤ 9 * i := Nat.mul_le_mul_right i (by omega)
    omega
  · have b1 : 11 * i ≤ (h - 1) * i := Nat.mul_le_mul_right i (by omega)
    omega

/-- With `his_stp = 11`-consistent tensors, the U-Net built by the
controller passes every internal width check and returns the noise
prediction shape `(B, A, 10, input_dim)`. -/
theorem unet_forwardShape_consistent (i c B A : ℕ) :
    (UnetDiffusionModel.make Option.none i c 11).forwardShape
      (B, A, 10, i) (B, A, 11, c) = some (B, A, 10, i) := by
  have hc : (11 : ℕ) * c = c * 11 := Nat.mul_comm _ _
  simp [UnetDiffusionModel.make, UnetDiffusionModel.forwardShape,
    LinearLayer.forwardShape, LinearLayer.make, Decoder.forwardShape,
    Decoder.make, Option.bind, hc]

/-- With a caller `his_stp = h ≠ 11`, the U-Net's very first linear layer
rejects the flattened input width. -/
theorem unet_forwardShape_mismatch (i c h B A : ℕ) (hi : 0 < i) (hh : h ≠ 11) :
    (UnetDiffusionModel.make Option.none i c 11).forwardShape
      (B, A, h - 1, i) (B, A, h, c) = Option.none := by
  have hw := unet_width_ne i c h hi hh
  simp [UnetDiffusionModel.make, UnetDiffusionModel.forwardShape,
    LinearLayer.forwardShape, LinearLayer.make, Option.bind, hw]

/-- With a caller `his_stp = h ≠ 11`, the DiT rejects the flattened
trajectory width: in the first cross-attention block if there is one,
otherwise in the projection head. -/
theorem dit_forwardShape_mismatch (i c h nb B A : ℕ) (hi : 0 < i) (hh : h ≠ 11) :
    (DitDiffusionModel.make i c 11 nb).forwardShape
      (B, A, h - 1, i) (B, A, h, c) = Option.none := by
  have hw := dit_width_ne i h hi hh
  cases nb with
  | zero =>
    simp [DitDiffusionModel.make, DitDiffusionModel.forwardShape,
      ditBlocksShape, Option.bind, hw]
  | succ n =>
    simp [DitDiffusionModel.make, DitDiffusionModel.forwardShape,
      ditBlocksShape, Option.bind, hw]

/-- All-zero tensor, used as a concrete input by the witnesses. -/
def tZero : Tensor4 := fun _ _ _ _ => 0

/-- Identity denoiser stub, used as a concrete denoiser by the witnesses. -/
def dId : Denoiser := fun x _ _ => x

/-- Zero noise source, used as a concrete randomness source by the witnesses. -/
def nsZero : ℕ → Tensor4 := fun _ => tZero

/-- All-ones mask, used as a concrete mask by the witnesses. -/
def maskOne : ℕ → ℕ → ℚ := fun _ _ => 1

/-- A small concrete enabled controller (schedule of length 2), used as a
concrete instance by the witnesses. -/
def gdEx : GaussianDiffusion :=
  { loss_type := "l2", diffusion_type := "unet", num_time_steps := 2,
    betas := [1/2, 1/3], alphas := [1/2, 2/3], alphas_cum_prod := [1/2, 1/3],
    sqrt_alphas_cum_prod := [1/2, 1/3],
    sqrt_one_minus_alphas_cum_prod := [1/2, 2/3],
    reciprocal_sqrt_alphas := [2, 3/2], sigma := [1/2, 1/3],
    alphas_cum_prod_prev := [1, 1/2], remove_noise_coeff := [0, 0],
    his_delt_step := 10, input_dim := 5,
    diffusion_model := DenoiserModule.unet (UnetDiffusionModel.make Option.none 5 5 11),
    norm_output_features := 5 }

/-- The concrete disabled controller produced by constructing with
`diffusion_type = "none"` and an empty beta schedule. -/
def gdNoneEx : GaussianDiffusion :=
  { loss_type := "l2", diffusion_type := "none", num_time_steps := 0,
    betas := [], alphas := [], alphas_cum_prod := [],
    sqrt_alphas_cum_prod := [], sqrt_one_minus_alphas_cum_prod := [],
    reciprocal_sqrt_alphas := [], sigma := [],
    alphas_cum_prod_prev := [1], remove_noise_coeff := [],
    his_delt_step := 10, input_dim := 5,
    diffusion_model := DenoiserModule.none, norm_output_features := 5 }

/-- C1: with diffusion enabled, `sample` iterates `t` from
`num_time_steps - 1` down to `0`, at each step replacing the state with
`remove_noise(state, t, history)` — invoking the denoiser exactly
`num_time_steps` times — and adds `sigma[t] * freshNoise` exactly for
`t > 0`; with `diffusion_type = "none"`, `sample` returns its input
unchanged. -/
theorem c1_sample_reverse_loop (gd : GaussianDiffusion) (D : Denoiser)
    (ns : ℕ → Tensor4) (norm2d : Tensor4 → Tensor4) (noise hist : Tensor4) :
    (gd.diffusion_type = "none" → gd.sample D ns norm2d noise hist = noise) ∧
    (gd.diffusion_type ≠ "none" →
      (gd.sampleCore D ns norm2d noise hist).2 = gd.num_time_steps ∧
      gd.sample D ns norm2d noise hist =
        transpose1Neg1 (norm2d (transpose1Neg1
          (((List.range gd.num_time_steps).reverse).foldl
            (gd.revStep D ns hist) noise)))) ∧
    (∀ (x : Tensor4) (t : ℕ), 0 < t →
      gd.revStep D ns hist x t =
        gd.remove_noise D x (fun _ => t) hist +
          extract gd.sigma (fun _ => t) * ns t) ∧
    (∀ x : Tensor4, gd.revStep D ns hist x 0 =
      gd.remove_noise D x (fun _ => 0) hist) := by
  refine ⟨?_, ?_, ?_, ?_⟩
  · intro h0
    simp [GaussianDiffusion.sample, GaussianDiffusion.sampleCore, h0]
  · intro hne
    cases hN : gd.num_time_steps with
    | zero =>
      constructor
      · simp [GaussianDiffusion.sampleCore, hne, hN]
      · simp [GaussianDiffusion.sample, GaussianDiffusion.sampleCore, hne, hN]
    | succ k =>
      have hl := sampleLoop_eq_foldl gd D ns hist k noise
      constructor
      · simp [GaussianDiffusion.sampleCore, hne, hN, hl]
      · simp [GaussianDiffusion.sample, GaussianDiffusion.sampleCore, hne, hN, hl]
  · intro x t ht
    simp [GaussianDiffusion.revStep, ht]
  · intro x
    simp [GaussianDiffusion.revStep]

theorem c1_witness :
    gdEx.diffusion_type ≠ "none" ∧
    (gdEx.sampleCore dId nsZero id tZero tZero).2 = gdEx.num_time_steps :=
  ⟨by decide, ((c1_sample_reverse_loop gdEx dId nsZero id tZero tZero).2.1 (by decide)).1⟩

/-- C2: `perturb_x(x0, t, noise)` is exactly
`sqrt_alphas_cum_prod[t[b]] * x0 + sqrt_one_minus_alphas_cum_prod[t[b]] * noise`
per batch row `b`, the per-row scalar broadcast over the agent, step and
coordinate axes. -/
theorem c2_perturb_x_formula (gd : GaussianDiffusion) (x0 : Tensor4)
    (t : TBatch) (noise : Tensor4) (ht : ∀ b, t b < gd.num_time_steps)
    (b a s d : ℕ) :
    gd.perturb_x x0 t noise b a s d =
      gd.sqrt_alphas_cum_prod.getD (t b) 0 * x0 b a s d +
        gd.sqrt_one_minus_alphas_cum_prod.getD (t b) 0 * noise b a s d := rfl

theorem c2_witness :
    (∀ b : ℕ, (fun _ => 1 : TBatch) b < gdEx.num_time_steps) ∧
    gdEx.perturb_x tZero (fun _ => 1) tZero 0 0 0 0 =
      gdEx.sqrt_alphas_cum_prod.getD 1 0 * tZero 0 0 0 0 +
        gdEx.sqrt_one_minus_alphas_cum_prod.getD 1 0 * tZero 0 0 0 0 :=
  ⟨fun _ => (by decide : (1 : ℕ) < gdEx.num_time_steps),
    c2_perturb_x_formula gdEx tZero (fun _ => 1) tZero
      (fun _ => (by decide : (1 : ℕ) < gdEx.num_time_steps)) 0 0 0 0⟩

/-- C3: for any denoiser, `remove_noise(xt, t, history)` is exactly
`(xt - remove_noise_coeff[t[b]] * denoiserOutput) * reciprocal_sqrt_alphas[t[b]]`
per batch row `b`, where the denoiser output is the denoiser applied to
`(xt, t, history)`. -/
theorem c3_remove_noise_formula (gd : GaussianDiffusion) (D : Denoiser)
    (xt : Tensor4) (t : TBatch) (hist : Tensor4)
    (ht : ∀ b, t b < gd.num_time_steps) (b a s d : ℕ) :
    gd.remove_noise D xt t hist b a s d =
      (xt b a s d - gd.remove_noise_coeff.getD (t b) 0 * D xt t hist b a s d) *
        gd.reciprocal_sqrt_alphas.getD (t b) 0 := rfl

theorem c3_witness :
    (∀ b : ℕ, (fun _ => 0 : TBatch) b < gdEx.num_time_steps) ∧
    gdEx.remove_noise dId tZero (fun _ => 0) tZero 0 0 0 0 =
      (tZero 0 0 0 0 - gdEx.remove_noise_coeff.getD 0 0 * dId tZero (fun _ => 0) tZero 0 0 0 0) *
        gdEx.reciprocal_sqrt_alphas.getD 0 0 :=
  ⟨fun _ => (by decide : (0 : ℕ) < gdEx.num_time_steps),
    c3_remove_noise_formula gdEx dId tZero (fun _ => 0) tZero
      (fun _ => (by decide : (0 : ℕ) < gdEx.num_time_steps)) 0 0 0 0⟩

theorem alphasOf_getD (betas : List ℚ) (i : ℕ) (h : i < betas.length) :
    (alphasOf betas).getD i 0 = 1 - betas.getD i 0 :=
  getD_map_of_lt _ _ _ h

theorem alphasCumProdOf_getD (betas : List ℚ) (i : ℕ) (h : i < betas.length) :
    (alphasCumProdOf betas).getD i 0 = ((alphasOf betas).take (i + 1)).prod := by
  apply cumprod_getD
  rw [alphasOf_length]
  exact h

theorem alphasCumProdPrevOf_length (betas : List ℚ) (h : 0 < betas.length) :
    (alphasCumProdPrevOf betas).length = betas.length := by
  simp only [alphasCumProdPrevOf, List.length_cons, List.length_dropLast,
    alphasCumProdOf_length]
  omega

theorem alphasCumProdPrevOf_getD (betas : List ℚ) (i : ℕ) (h : i < betas.length) :
    (alphasCumProdPrevOf betas).getD i 0 =
      if i = 0 then 1 else (alphasCumProdOf betas).getD (i - 1) 0 := by
  cases i with
  | zero => simp [alphasCumProdPrevOf]
  | succ j =>
    have hj : j < (alphasCumProdOf betas).dropLast.length := by
      rw [List.length_dropLast, alphasCumProdOf_length]; omega
    have hj2 : j < (alphasCumProdOf betas).length := by
      rw [alphasCumProdOf_length]; omega
    simp only [alphasCumProdPrevOf, List.getD_cons_succ, Nat.succ_ne_zero,
      if_false, Nat.succ_sub_one]
    rw [List.getD_eq_getElem _ _ hj, List.getD_eq_getElem _ _ hj2,
      List.getElem_dropLast]

theorem removeNoiseCoeffOf_getD (sqrt : ℚ → ℚ) (betas : List ℚ) (i : ℕ)
    (h : i < betas.length) :
    (removeNoiseCoeffOf sqrt betas).getD i 0 =
      betas.getD i 0 * (1 - (alphasCumProdPrevOf betas).getD i 0 /
        sqrt (1 - (alphasCumProdOf betas).getD i 0)) := by
  have hprev : i < (alphasCumProdPrevOf betas).length := by
    rw [alphasCumProdPrevOf_length betas (by omega)]; exact h
  have hacp : i < (alphasCumProdOf betas).length := by
    rw [alphasCumProdOf_length]; exact h
  rw [removeNoiseCoeffOf,
    getD_zipWith_of_lt _ _ _ _ h (by rw [List.length_zipWith]; exact lt_min hprev hacp),
    getD_zipWith_of_lt _ _ _ _ hprev hacp]

/-- C4: a successful construction stores the eight coefficient buffers
all of length `num_time_steps = len(betas)`, satisfying the defining
formulas at every index: `alphas[i] = 1 - betas[i]`,
`alphas_cum_prod[i] = prod(alphas[0..i])`, the three sqrt-derived
vectors, `sigma[i] = sqrt(betas[i])`,
`alphas_cum_prod_prev[i] = alphas_cum_prod[i-1]` for `i > 0` (else `1`),
and `remove_noise_coeff[i] =
betas[i] * (1 - alphas_cum_prod_prev[i] / sqrt(1 - alphas_cum_prod[i]))`.
(`alphas_cum_prod_prev` is a construction-local vector in the source,
not a registered buffer; for a nonempty schedule it also has length
`num_time_steps`.) -/
theorem c4_schedule_construction (sqrt : ℚ → ℚ)
    (input_dim conditional_dim his_stp : ℕ) (betas : List ℚ)
    (loss_type : String) (num_dit_blocks : ℕ) (diffusion_type : String)
    (gd : GaussianDiffusion)
    (h : GaussianDiffusion.init sqrt input_dim conditional_dim his_stp betas
      loss_type num_dit_blocks diffusion_type = Except.ok gd) :
    gd.num_time_steps = betas.length ∧
    gd.betas.length = betas.length ∧
    gd.alphas.length = betas.length ∧
    gd.alphas_cum_prod.length = betas.length ∧
    gd.sqrt_alphas_cum_prod.length = betas.length ∧
    gd.sqrt_one_minus_alphas_cum_prod.length = betas.length ∧
    gd.reciprocal_sqrt_alphas.length = betas.length ∧
    gd.sigma.length = betas.length ∧
    gd.remove_noise_coeff.length = betas.length ∧
    (0 < betas.length → gd.alphas_cum_prod_prev.length = betas.length) ∧
    (∀ i, i < betas.length →
      gd.alphas.getD i 0 = 1 - gd.betas.getD i 0 ∧
      gd.alphas_cum_prod.getD i 0 = (gd.alphas.take (i + 1)).prod ∧
      gd.sqrt_alphas_cum_prod.getD i 0 = sqrt (gd.alphas_cum_prod.getD i 0) ∧
      gd.sqrt_one_minus_alphas_cum_prod.getD i 0 =
        sqrt (1 - gd.alphas_cum_prod.getD i 0) ∧
      gd.reciprocal_sqrt_alphas.getD i 0 = sqrt (1 / gd.alphas.getD i 0) ∧
      gd.sigma.getD i 0 = sqrt (gd.betas.getD i 0) ∧
      gd.alphas_cum_prod_prev.getD i 0 =
        (if i = 0 then 1 else gd.alphas_cum_prod.getD (i - 1) 0) ∧
      gd.remove_noise_coeff.getD i 0 =
        gd.betas.getD i 0 * (1 - gd.alphas_cum_prod_prev.getD i 0 /
          sqrt (1 - gd.alphas_cum_prod.getD i 0))) := by
  obtain ⟨-, -, hN, hbet, ha, hacp, hsacp, hsom, hrsa, hsig, hprev, hrnc, -, -, -, -⟩ :=
    GaussianDiffusion.init_fields h
  rw [hN, hbet, ha, hacp, hsacp, hsom, hrsa, hsig, hprev, hrnc]
  refine ⟨rfl, rfl, alphasOf_length betas, alphasCumProdOf_length betas, ?_, ?_, ?_, ?_,
    removeNoiseCoeffOf_length sqrt betas, alphasCumProdPrevOf_length betas, ?_⟩
  · simp [sqrtAlphasCumProdOf, alphasCumProdOf_length]
  · simp [sqrtOneMinusAlphasCumProdOf, alphasCumProdOf_length]
  · simp [reciprocalSqrtAlphasOf, alphasOf_length]
  · simp [sigmaOf]
  · intro i hi
    have hai : i < (alphasOf betas).length := by rw [alphasOf_length]; exact hi
    have hci : i < (alphasCumProdOf betas).length := by
      rw [alphasCumProdOf_length]; exact hi
    refine ⟨alphasOf_getD betas i hi, alphasCumProdOf_getD betas i hi, ?_, ?_, ?_, ?_,
      alphasCumProdPrevOf_getD betas i hi, removeNoiseCoeffOf_getD sqrt betas i hi⟩
    · exact getD_map_of_lt _ _ _ hci
    · exact getD_map_of_lt _ _ _ hci
    · exact getD_map_of_lt _ _ _ hai
    · exact getD_map_of_lt _ _ _ hi

theorem c4_witness :
    (GaussianDiffusion.init (fun x => x) 5 5 11 [1/2] "l2" 4 "unet").map
      (fun gd => (gd.num_time_steps, gd.remove_noise_coeff.length,
        gd.alphas.getD 0 0)) = Except.ok (1, 1, 1 - 1/2) := by
  have h := c4_schedule_construction (fun x => x) 5 5 11 [1/2] "l2" 4 "unet" _ rfl
  obtain ⟨h1, -, -, -, -, -, -, -, h9, -, hidx⟩ := h
  have h10 := (hidx 0 (by decide)).1
  exact congrArg Except.ok (by
    refine Prod.ext ?_ (Prod.ext ?_ ?_) <;> simp_all)

/-- C6: for every beta sequence with every entry strictly inside (0, 1),
the stored `alphas_cum_prod` is strictly decreasing (hence monotonically
non-increasing) and every entry lies in (0, 1]. -/
theorem c6_alphas_cum_prod_monotone (sqrt : ℚ → ℚ)
    (input_dim conditional_dim his_stp : ℕ) (betas : List ℚ)
    (loss_type : String) (num_dit_blocks : ℕ) (diffusion_type : String)
    (gd : GaussianDiffusion)
    (h : GaussianDiffusion.init sqrt input_dim conditional_dim his_stp betas
      loss_type num_dit_blocks diffusion_type = Except.ok gd)
    (hb : ∀ b ∈ betas, 0 < b ∧ b < 1) :
    (∀ i, i + 1 < gd.num_time_steps →
      gd.alphas_cum_prod.getD (i + 1) 0 < gd.alphas_cum_prod.getD i 0) ∧
    (∀ i, i < gd.num_time_steps →
      0 < gd.alphas_cum_prod.getD i 0 ∧ gd.alphas_cum_prod.getD i 0 ≤ 1) := by
  obtain ⟨-, -, hN, -, -, hacp, -, -, -, -, -, -, -, -, -, -⟩ :=
    GaussianDiffusion.init_fields h
  rw [hN, hacp]
  have halpha : ∀ x ∈ alphasOf betas, 0 < x ∧ x < 1 := by
    intro x hx
    obtain ⟨b, hbmem, rfl⟩ := List.mem_map.mp hx
    obtain ⟨hb0, hb1⟩ := hb b hbmem
    constructor <;> linarith
  have htake_pos : ∀ i, 0 < ((alphasOf betas).take (i + 1)).prod := by
    intro i
    apply List.prod_pos
    intro x hx
    exact (halpha x (List.take_subset _ _ hx)).1
  have htake_le : ∀ i, ((alphasOf betas).take (i + 1)).prod ≤ 1 := by
    intro i
    apply list_prod_le_one
    · intro x hx; exact le_of_lt (halpha x (List.take_subset _ _ hx)).1
    · intro x hx; exact le_of_lt (halpha x (List.take_subset _ _ hx)).2
  constructor
  · intro i hi1
    have hia : i + 1 < (alphasOf betas).length := by rw [alphasOf_length]; exact hi1
    have hi : i < betas.length := by omega
    rw [alphasCumProdOf_getD betas (i + 1) hi1, alphasCumProdOf_getD betas i hi]
    rw [List.prod_take_succ _ _ hia]
    have helem : (alphasOf betas)[i + 1] < 1 :=
      (halpha _ (List.getElem_mem hia)).2
    calc ((alphasOf betas).take (i + 1)).prod * (alphasOf betas)[i + 1]
        < ((alphasOf betas).take (i + 1)).prod * 1 :=
          mul_lt_mul_of_pos_left helem (htake_pos i)
    _ = ((alphasOf betas).take (i + 1)).prod := mul_one _
  · intro i hi
    rw [alphasCumProdOf_getD betas i hi]
    exact ⟨htake_pos i, htake_le i⟩

theorem c6_witness :
    (alphasCumProdOf [1/2, 1/3]).getD 1 0 < (alphasCumProdOf [1/2, 1/3]).getD 0 0 ∧
    0 < (alphasCumProdOf [1/2, 1/3]).getD 0 0 := by
  have h := c6_alphas_cum_prod_monotone (fun x => x) 5 5 11 [1/2, 1/3] "l2" 4 "unet" _ rfl
    (by intro b hb; fin_cases hb <;> norm_num)
  exact ⟨h.1 0 (by decide), (h.2 0 (by decide)).1⟩

/-- C5: with diffusion enabled, `get_losses` perturbs the ground-truth
delta with the drawn noise, runs the denoiser on the result, squares the
elementwise error against the drawn noise, multiplies by the
per-(batch, agent) mask broadcast over the step and coordinate axes, and
returns the scalar `sum(loss * mask) / sum(mask)`; the squared error is
used regardless of `loss_type` (the field is never branched on). -/
theorem c5_get_losses_masked_mse (gd : GaussianDiffusion) (D : Denoiser)
    (noiseDraw delt hist : Tensor4) (mask : ℕ → ℕ → ℚ) (t : TBatch) (B A : ℕ)
    (he : gd.diffusion_type ≠ "none") :
    gd.get_losses D noiseDraw delt hist mask t B A =
      fdiv
        (∑ b ∈ Finset.range B, ∑ a ∈ Finset.range A,
          ∑ s ∈ Finset.range gd.his_delt_step, ∑ c ∈ Finset.range gd.input_dim,
            (D (gd.perturb_x delt t noiseDraw) t hist b a s c - noiseDraw b a s c) ^ 2 *
              mask b a)
        (∑ b ∈ Finset.range B, ∑ a ∈ Finset.range A,
          ∑ s ∈ Finset.range gd.his_delt_step, ∑ c ∈ Finset.range gd.input_dim,
            mask b a) ∧
    (∀ lt : String,
      ({ gd with loss_type := lt } : GaussianDiffusion).get_losses D noiseDraw delt hist
        mask t B A = gd.get_losses D noiseDraw delt hist mask t B A) := by
  constructor
  · simp only [GaussianDiffusion.get_losses, if_pos he]
    rfl
  · intro lt
    rfl

theorem c5_witness :
    gdEx.diffusion_type ≠ "none" ∧
    ({ gdEx with loss_type := "l1" } : GaussianDiffusion).get_losses dId tZero tZero tZero
      maskOne (fun _ => 0) 1 1 =
      gdEx.get_losses dId tZero tZero tZero maskOne (fun _ => 0) 1 1 :=
  ⟨by decide,
    (c5_get_losses_masked_mse gdEx dId tZero tZero tZero maskOne (fun _ => 0) 1 1
      (by decide)).2 "l1"⟩

/-- C8: with diffusion enabled and a mask summing to zero (every entry
zero), `get_losses` reaches the unguarded division with a zero
denominator and returns the float NaN value instead of raising. -/
theorem c8_zero_mask_nan (gd : GaussianDiffusion) (D : Denoiser)
    (noiseDraw delt hist : Tensor4) (mask : ℕ → ℕ → ℚ) (t : TBatch) (B A : ℕ)
    (he : gd.diffusion_type ≠ "none") (hm : ∀ b a, mask b a = 0) :
    gd.get_losses D noiseDraw delt hist mask t B A = FVal.nan := by
  simp only [GaussianDiffusion.get_losses, if_pos he]
  have hden : tsum4 B A gd.his_delt_step gd.input_dim
      (fun b a _ _ => mask b a) = 0 := by
    simp [tsum4, hm]
  have hnum : tsum4 B A gd.his_delt_step gd.input_dim
      ((fun b a s c => (D (gd.perturb_x delt t noiseDraw) t hist b a s c -
          noiseDraw b a s c) ^ 2) * (fun b a _ _ => mask b a)) = 0 := by
    simp [tsum4, Pi.mul_apply, hm]
  rw [hnum, hden]
  rfl

theorem c8_witness :
    gdEx.diffusion_type ≠ "none" ∧
    gdEx.get_losses dId tZero tZero tZero (fun _ _ => 0) (fun _ => 0) 2 3 = FVal.nan :=
  ⟨by decide,
    c8_zero_mask_nan gdEx dId tZero tZero tZero (fun _ _ => 0) (fun _ => 0) 2 3
      (by decide) (fun _ _ => rfl)⟩

/-- C7 counterexample: the disabled controller built from
`diffusion_type = "none"` with an empty beta schedule has
`num_time_steps = 0`; its `forward` then calls
`torch.randint(0, 0, (batch,))`, which raises, so `forward` does not
return the zero scalar loss — even though `get_losses` itself, called
directly on the same disabled controller, does return exactly `0`. -/
theorem c7_counterexample :
    GaussianDiffusion.init (fun x => x) 5 5 11 [] "l2" 4 "none" = Except.ok gdNoneEx ∧
    gdNoneEx.forward dId tZero (fun _ => 0) tZero tZero maskOne 2 8 =
      Except.error ("random_ expects from to be less than to") ∧
    gdNoneEx.forward dId tZero (fun _ => 0) tZero tZero maskOne 2 8 ≠
      Except.ok (FVal.val 0) ∧
    gdNoneEx.get_losses dId tZero tZero tZero maskOne (fun _ => 0) 2 8 = FVal.val 0 := by
  exact ⟨rfl, rfl, fun hcon => Except.noConfusion hcon, rfl⟩

/-- C7 (amended): `forward` draws one timestep per batch row uniformly
from `[0, num_time_steps)` and returns the result of `get_losses` on
that draw whenever `num_time_steps > 0`; but when `num_time_steps = 0`
(the disabled/"none" sentinel pathway) the `torch.randint` call raises,
so `forward` propagates an error instead of the zero scalar loss that
`get_losses` itself produces on a disabled controller. -/
theorem c7_forward_delegates (gd : GaussianDiffusion) (D : Denoiser)
    (noiseDraw : Tensor4) (draw : ℕ → ℕ) (delt hist : Tensor4)
    (mask : ℕ → ℕ → ℚ) (B A : ℕ) :
    (0 < gd.num_time_steps →
      gd.forward D noiseDraw draw delt hist mask B A =
        Except.ok (gd.get_losses D noiseDraw delt hist mask
          (fun b => draw b % gd.num_time_steps) B A) ∧
      (∀ b, draw b % gd.num_time_steps < gd.num_time_steps)) ∧
    (gd.num_time_steps = 0 →
      gd.forward D noiseDraw draw delt hist mask B A =
        Except.error ("random_ expects from to be less than to")) ∧
    (gd.diffusion_type = "none" →
      ∀ (t : TBatch) (B2 A2 : ℕ),
        gd.get_losses D noiseDraw delt hist mask t B2 A2 = FVal.val 0) := by
  refine ⟨?_, ?_, ?_⟩
  · intro hpos
    constructor
    · have ht : (fun b => 0 + draw b % (gd.num_time_steps - 0)) =
          (fun b => draw b % gd.num_time_steps) := by
        funext b
        simp
      simp only [GaussianDiffusion.forward, randint, if_pos hpos, ht]
    · intro b
      exact Nat.mod_lt _ hpos
  · intro h0
    simp [GaussianDiffusion.forward, randint, h0]
  · intro hnone t B2 A2
    simp [GaussianDiffusion.get_losses, hnone]

theorem c7_witness :
    0 < gdEx.num_time_steps ∧
    gdEx.forward dId tZero (fun _ => 1) tZero tZero maskOne 1 1 =
      Except.ok (gdEx.get_losses dId tZero tZero tZero maskOne
        (fun b => (fun _ => 1) b % gdEx.num_time_steps) 1 1) :=
  ⟨by decide,
    ((c7_forward_delegates gdEx dId tZero (fun _ => 1) tZero tZero maskOne 1 1).1
      (by decide)).1⟩

/-- A cross-attention stack fed its own construction widths is
shape-preserving for any number of blocks. -/
theorem ditBlocksShape_fixed (m : DitDiffusionModel) :
    ∀ n : ℕ, ditBlocksShape m m.conditional_dim m.input_dim n = some m.input_dim
  | 0 => rfl
  | n + 1 => by simp [ditBlocksShape, ditBlocksShape_fixed m n]

/-- With `his_stp = 11`-consistent tensors, the DiT built by the
controller passes every internal width check and returns the noise
prediction shape `(B, A, 10, input_dim)`. -/
theorem dit_forwardShape_consistent (i c nb B A : ℕ) :
    (DitDiffusionModel.make i c 11 nb).forwardShape
      (B, A, 10, i) (B, A, 11, c) = some (B, A, 10, i) := by
  have hb := ditBlocksShape_fixed (DitDiffusionModel.make i c 11 nb) nb
  have hin : (DitDiffusionModel.make i c 11 nb).input_dim = 10 * i + 1 := rfl
  have hcond : (DitDiffusionModel.make i c 11 nb).conditional_dim = 11 * c := rfl
  rw [hin, hcond] at hb
  have hdvd : (10 : ℕ) ∣ 10 * i := dvd_mul_right 10 i
  have hdiv : 10 * i / 10 = i := Nat.mul_div_cancel_left i (by norm_num)
  simp only [DitDiffusionModel.make] at hb
  simp [DitDiffusionModel.forwardShape, DitDiffusionModel.make, hdvd, hdiv]
  rw [hb]
  simp

/-- C9: the final normalisation of `sample` is a batch-normalisation
hard-coded to 5 channels regardless of the `input_dim` passed at
construction; for either enabled controller (U-Net or DiT built), with
`his_stp = 11` (so that every other shape is consistent) and any
`input_dim ≠ 5`, the whole reverse loop passes the shape checks but
`sample` fails at the final `BatchNorm2d(5)`, whose channel axis carries
`input_dim` coordinates after the transpose. -/
theorem c9_hardcoded_batchnorm (sqrt : ℚ → ℚ) (i c : ℕ) (betas : List ℚ)
    (lt : String) (nb : ℕ) (gdU gdD : GaussianDiffusion) (B A : ℕ)
    (hU : GaussianDiffusion.init sqrt i c 11 betas lt nb "unet" = Except.ok gdU)
    (hD : GaussianDiffusion.init sqrt i c 11 betas lt nb "dit" = Except.ok gdD)
    (hi : i ≠ 5) :
    gdU.norm_output_features = 5 ∧
    gdD.norm_output_features = 5 ∧
    gdU.sampleLoopShape (B, A, 11, c) gdU.num_time_steps (B, A, 10, i) =
      some (B, A, 10, i) ∧
    gdD.sampleLoopShape (B, A, 11, c) gdD.num_time_steps (B, A, 10, i) =
      some (B, A, 10, i) ∧
    gdU.sampleShape (B, A, 10, i) (B, A, 11, c) = Option.none ∧
    gdD.sampleShape (B, A, 10, i) (B, A, 11, c) = Option.none := by
  obtain ⟨-, hdtU, -, -, -, -, -, -, -, -, -, -, -, -, hnfU, hdmU⟩ :=
    GaussianDiffusion.init_fields hU
  obtain ⟨-, hdtD, -, -, -, -, -, -, -, -, -, -, -, -, hnfD, hdmD⟩ :=
    GaussianDiffusion.init_fields hD
  have hdmU2 : gdU.diffusion_model =
      DenoiserModule.unet (UnetDiffusionModel.make Option.none i c 11) := by
    rw [hdmU]; rfl
  have hdmD2 : gdD.diffusion_model =
      DenoiserModule.dit (DitDiffusionModel.make i c 11 nb) := by
    rw [hdmD]; rfl
  have hrnU : gdU.removeNoiseShape (B, A, 10, i) (B, A, 11, c) =
      some (B, A, 10, i) := by
    rw [GaussianDiffusion.removeNoiseShape, hdmU2]
    simp [DenoiserModule.forwardShape, unet_forwardShape_consistent]
  have hrnD : gdD.removeNoiseShape (B, A, 10, i) (B, A, 11, c) =
      some (B, A, 10, i) := by
    rw [GaussianDiffusion.removeNoiseShape, hdmD2]
    simp [DenoiserModule.forwardShape, dit_forwardShape_consistent]
  have hloopU := sampleLoopShape_fixed gdU (B, A, 11, c) (B, A, 10, i) hrnU
  have hloopD := sampleLoopShape_fixed gdD (B, A, 11, c) (B, A, 10, i) hrnD
  refine ⟨hnfU, hnfD, hloopU gdU.num_time_steps, hloopD gdD.num_time_steps, ?_, ?_⟩
  · rw [GaussianDiffusion.sampleShape, if_pos (by rw [hdtU]; decide),
      hloopU gdU.num_time_steps]
    rw [hnfU]
    simp [hi]
  · rw [GaussianDiffusion.sampleShape, if_pos (by rw [hdtD]; decide),
      hloopD gdD.num_time_steps]
    rw [hnfD]
    simp [hi]

theorem c9_witness :
    (GaussianDiffusion.init (fun x => x) 3 5 11 [1/2] "l2" 4 "unet").map
      (fun gd => gd.sampleShape (2, 8, 10, 3) (2, 8, 11, 5)) =
      Except.ok Option.none ∧
    (GaussianDiffusion.init (fun x => x) 3 5 11 [1/2] "l2" 4 "dit").map
      (fun gd => gd.sampleShape (2, 8, 10, 3) (2, 8, 11, 5)) =
      Except.ok Option.none := by
  have h := c9_hardcoded_batchnorm (fun x => x) 3 5 [1/2] "l2" 4 _ _ 2 8 rfl rfl
    (by decide)
  exact ⟨congrArg Except.ok h.2.2.2.2.1, congrArg Except.ok h.2.2.2.2.2⟩

/-- C10: construction never forwards `his_stp` to either denoiser — both
are built with the python default `his_stp = 11` — so with a positive
coordinate dimension, a nonempty schedule, and any caller `his_stp ≠ 11`
(trajectories shaped `(B, A, his_stp - 1, input_dim)` and histories
`(B, A, his_stp, conditional_dim)`), the denoiser's flattened input width
disagrees with the caller's and every `sample` and `get_losses` call
fails the shape check, for the U-Net and the DiT alike. -/
theorem c10_his_stp_not_forwarded (sqrt : ℚ → ℚ) (i c hs nb : ℕ)
    (betas : List ℚ) (lt : String) (gdU gdD : GaussianDiffusion) (B A : ℕ)
    (hU : GaussianDiffusion.init sqrt i c hs betas lt nb "unet" = Except.ok gdU)
    (hD : GaussianDiffusion.init sqrt i c hs betas lt nb "dit" = Except.ok gdD)
    (hh : hs ≠ 11) (hi : 0 < i) (hn : 0 < betas.length) :
    gdU.diffusion_model =
      DenoiserModule.unet (UnetDiffusionModel.make Option.none i c 11) ∧
    gdD.diffusion_model =
      DenoiserModule.dit (DitDiffusionModel.make i c 11 nb) ∧
    gdU.sampleShape (B, A, hs - 1, i) (B, A, hs, c) = Option.none ∧
    gdU.getLossesShape (B, A, hs - 1, i) (B, A, hs, c) (B, A) = Option.none ∧
    gdD.sampleShape (B, A, hs - 1, i) (B, A, hs, c) = Option.none ∧
    gdD.getLossesShape (B, A, hs - 1, i) (B, A, hs, c) (B, A) = Option.none := by
  obtain ⟨-, hdtU, hNU, -, -, -, -, -, -, -, -, -, -, -, -, hdmU⟩ :=
    GaussianDiffusion.init_fields hU
  obtain ⟨-, hdtD, hND, -, -, -, -, -, -, -, -, -, -, -, -, hdmD⟩ :=
    GaussianDiffusion.init_fields hD
  have hdmU2 : gdU.diffusion_model =
      DenoiserModule.unet (UnetDiffusionModel.make Option.none i c 11) := by
    rw [hdmU]; rfl
  have hdmD2 : gdD.diffusion_model =
      DenoiserModule.dit (DitDiffusionModel.make i c 11 nb) := by
    rw [hdmD]; rfl
  have hfU : gdU.diffusion_model.forwardShape (B, A, hs - 1, i) (B, A, hs, c) =
      Option.none := by
    rw [hdmU2]
    exact unet_forwardShape_mismatch i c hs B A hi hh
  have hfD : gdD.diffusion_model.forwardShape (B, A, hs - 1, i) (B, A, hs, c) =
      Option.none := by
    rw [hdmD2]
    exact dit_forwardShape_mismatch i c hs nb B A hi hh
  have hrnU : gdU.removeNoiseShape (B, A, hs - 1, i) (B, A, hs, c) = Option.none := by
    rw [GaussianDiffusion.removeNoiseShape, hfU]; rfl
  have hrnD : gdD.removeNoiseShape (B, A, hs - 1, i) (B, A, hs, c) = Option.none := by
    rw [GaussianDiffusion.removeNoiseShape, hfD]; rfl
  refine ⟨hdmU2, hdmD2, ?_, ?_, ?_, ?_⟩
  · rw [GaussianDiffusion.sampleShape, if_pos (by rw [hdtU]; decide)]
    rcases hNn : gdU.num_time_steps with _ | n
    · rw [hNU] at hNn; omega
    · rw [GaussianDiffusion.sampleLoopShape, hrnU]; rfl
  · rw [GaussianDiffusion.getLossesShape, if_pos (by rw [hdtU]; decide), hfU]; rfl
  · rw [GaussianDiffusion.sampleShape, if_pos (by rw [hdtD]; decide)]
    rcases hNn : gdD.num_time_steps with _ | n
    · rw [hND] at hNn; omega
    · rw [GaussianDiffusion.sampleLoopShape, hrnD]; rfl
  · rw [GaussianDiffusion.getLossesShape, if_pos (by rw [hdtD]; decide), hfD]; rfl

theorem c10_witness :
    (GaussianDiffusion.init (fun x => x) 5 5 12 [1/2] "l2" 4 "unet").map
      (fun gd => gd.sampleShape (2, 8, 11, 5) (2, 8, 12, 5)) =
      Except.ok Option.none ∧
    (GaussianDiffusion.init (fun x => x) 5 5 12 [1/2] "l2" 4 "dit").map
      (fun gd => gd.getLossesShape (2, 8, 11, 5) (2, 8, 12, 5) (2, 8)) =
      Except.ok Option.none := by
  have h := c10_his_stp_not_forwarded (fun x => x) 5 5 12 4 [1/2] "l2" _ _ 2 8 rfl rfl
    (by decide) (by decide) (by decide)
  exact ⟨congrArg Except.ok h.2.2.1, congrArg Except.ok h.2.2.2.2.2⟩
